import Mathlib

/-!
# TermLeek: window compositing, resize synchronisation and lifecycle

A shallow embedding of `src/main.go`.  The Go program is a GTK application:
`main` resolves the configuration, `setupWindow` builds the widget tree and
connects the signal handlers, and `gtk.Main` dispatches events to those
handlers until `gtk.MainQuit` is called or a handler ends the process with
`log.Fatal`.

* The widget tree and the `App` value are one record, `World`, passed through
  every handler.
* The toolkit (`gdk`, not part of the repository) is a parameter, `Gdk`: the
  three pixbuf operations the program calls.  A Go `(*Pixbuf, error)` result is
  an `Option Pixbuf`, `none` being the `nil` pointer returned with an error.
* Every call into `Gdk` is appended to `World.trace`, so that "is not invoked"
  is a statement about the trace.
* `log.Fatal` is `Status.fatal`; `gtk.MainQuit` is `Status.quit`; `mainLoop`
  dispatches events only while the status is `Status.running`.
* Widget constructors (`WindowNew`, `ScrolledWindowNew`, `LayoutNew`,
  `ImageNewFromPixbuf`) are taken to succeed.  The `Opacity` field (a float64),
  and the unused `Width` and `Height` fields of `App`, are left out.
-/

namespace Termleek

/-! ## Constants and configuration -/

/-- Go: `const minWidth = 340`. -/
def minWidth : Int := 340

/-- Go: `const minHeight = 185`. -/
def minHeight : Int := 185

/-- Go: `App.Config.Background`. -/
structure BackgroundConfig where
  Source : String
  PreserveAspectRatio : Bool
deriving DecidableEq, Repr

/-- Go: `App.Config.Terminal` (without `Opacity`). -/
structure TerminalConfig where
  MinWidth : Int
  MinHeight : Int
  Icon : String
  Font : String
deriving DecidableEq, Repr

/-- Go: `App.Config`. -/
structure Config where
  Background : BackgroundConfig
  Terminal : TerminalConfig
deriving DecidableEq, Repr

/-- The keys `main` reads from `termleek.ini`.  A string key that is absent is
the empty string (as `Key.String` gives); `min_width`, `min_height` and
`preserve_aspect_ratio` hold the parsed value when the key is present and
parses, `none` otherwise. -/
structure IniFile where
  source : String
  preserve_aspect_ratio : Option Bool
  font : String
  min_width : Option Int
  min_height : Option Int
  icon : String
deriving DecidableEq, Repr

/-- The ini library: `Key.MustString(defaultVal)` gives the default when the value is empty. -/
def MustString (val : String) (defaultVal : String) : String :=
  if val = "" then defaultVal else val

/-- The ini library: `Key.MustInt(defaultVal)` gives the default when the value does not parse. -/
def MustInt (val : Option Int) (defaultVal : Int) : Int :=
  val.getD defaultVal

/-- The ini library: `Key.MustBool()` gives `false` when the value does not parse. -/
def MustBool (val : Option Bool) : Bool :=
  val.getD false

/-- Go, `main` lines 254-259: the function literal applied to `min_width`. -/
def clampMinWidth (w : Int) : Int :=
  if w < minWidth then minWidth else w

/-- Go, `main` lines 261-266: the function literal applied to `min_height`. -/
def clampMinHeight (h : Int) : Int :=
  if h < minHeight then minHeight else h

/-- Go, `main` lines 240-277: the configuration is resolved field by field;
`notExist path` says that `os.Stat path` fails with `os.ErrNotExist`, in which
case the process exits with code 1 (`Except.error 1`). -/
def loadConfig (notExist : String → Bool) (cfg : IniFile) : Except Nat Config :=
  let source := MustString cfg.source ""
  if source ≠ "" ∧ notExist source = true then .error 1
  else
    let preserveAspectRatio := MustBool cfg.preserve_aspect_ratio
    let font := MustString cfg.font "monospace 10"
    let minW := clampMinWidth (MustInt cfg.min_width 680)
    let minH := clampMinHeight (MustInt cfg.min_height 370)
    let icon := MustString cfg.icon ""
    if icon ≠ "" ∧ notExist icon = true then .error 1
    else
      .ok { Background := { Source := source, PreserveAspectRatio := preserveAspectRatio }
            Terminal := { MinWidth := minW, MinHeight := minH, Icon := icon, Font := font } }

/-! ## The toolkit -/

/-- A `gdk.Pixbuf`: its dimensions and its pixel content. -/
structure Pixbuf where
  width : Int
  height : Int
  pixels : List Nat
deriving DecidableEq, Repr

/-- The `gdk.InterpType` constants. -/
inductive InterpType where
  | INTERP_NEAREST
  | INTERP_TILES
  | INTERP_BILINEAR
  | INTERP_HYPER
deriving DecidableEq, Repr

/-- The pixbuf operations of the toolkit that the program calls. -/
structure Gdk where
  /-- Go: `gdk.PixbufNewFromFileAtScale(filename, width, height, preserveAspectRatio)`. -/
  PixbufNewFromFileAtScale : String → Int → Int → Bool → Option Pixbuf
  /-- Go: `gdk.PixbufCopy(src)`. -/
  PixbufCopy : Pixbuf → Option Pixbuf
  /-- Go: `src.ScaleSimple(destWidth, destHeight, interpType)`. -/
  ScaleSimple : Pixbuf → Int → Int → InterpType → Option Pixbuf

/-- One call into the toolkit, as recorded in the trace. -/
inductive GdkCall where
  | load (filename : String) (width height : Int) (preserveAspectRatio : Bool)
  | copy (src : Pixbuf)
  | scale (src : Pixbuf) (destWidth destHeight : Int) (interp : InterpType)
deriving DecidableEq, Repr

/-- Whether the call is a `ScaleSimple`. -/
def GdkCall.isScale : GdkCall → Bool
  | .scale _ _ _ _ => true
  | _ => false

/-- The source pixbuf of a `ScaleSimple` call. -/
def GdkCall.scaleSource : GdkCall → Option Pixbuf
  | .scale src _ _ _ => some src
  | _ => none

/-! ## Widgets -/

/-- A `gtk.Allocation`, reduced to its size. -/
structure Allocation where
  width : Int
  height : Int
deriving DecidableEq, Repr

/-- The `gtk.Window` state the program sets or reads. -/
structure Window where
  title : String
  defaultSize : Int × Int
  sizeRequest : Int × Int
  centered : Bool
  resizable : Bool
  icon : Option String
  allocation : Allocation
deriving DecidableEq, Repr

/-- A `gtk.Image`: the pixbuf on screen (`GetPixbuf` gives `nil` for an empty
image) and its size request. -/
structure Image where
  pixbuf : Option Pixbuf
  sizeRequest : Int × Int
deriving DecidableEq, Repr

/-- The `vte` terminal widget: what `getTerminal` sets, the title the child
last reported, and the size request. -/
structure VteTerminal where
  font : String
  encoding : String
  execArgs : List String
  execTimeout : Int
  windowTitle : String
  sizeRequest : Int × Int
deriving DecidableEq, Repr

/-- The `gtk.ScrolledWindow` holding the terminal. -/
structure ScrolledWindow where
  hexpand : Bool
  vexpand : Bool
  sizeRequest : Int × Int
deriving DecidableEq, Repr

/-- The children `setupWindow` puts into the `gtk.Layout`, all at (0, 0). -/
inductive Widget where
  | backgroundImage
  | scrolledWindow
deriving DecidableEq, Repr

/-- The state of the process. -/
inductive Status where
  | running
  | quit
  | fatal
deriving DecidableEq, Repr

/-- The application once `setupWindow` has run: the `App` value, the widgets it
built, and the `size-allocate` closure, which is `some sourcePixbuf` (the
variable it captured) when it was connected. -/
structure World where
  Config : Config
  Window : Window
  BackgroundImage : Option Image
  terminal : VteTerminal
  scrolledWindow : ScrolledWindow
  layout : List Widget
  sizeAllocate : Option Pixbuf
  status : Status
  trace : List GdkCall
  log : List String
deriving DecidableEq, Repr

/-- The process environment. -/
abbrev Environ := List (String × String)

/-- Go: `os.Getenv(key)`, the empty string when the variable is absent. -/
def Getenv (env : Environ) (key : String) : String :=
  (env.lookup key).getD ""

/-! ## The operations of `App` -/

/-- Go: `App.resizeImage(widget, data)`.  The receiver is a copy of `App`, so
the only effects on the world are the log line, the recorded toolkit call and,
when `ScaleSimple` fails, `log.Fatalln`.  The result is the new pixbuf, or
`none` for Go's `nil`. -/
def resizeImage (gdk : Gdk) (app : World) (data : Pixbuf) : World × Option Pixbuf :=
  let sourcePixbuf := data
  match app.BackgroundImage.bind (fun img => img.pixbuf) with
  | none => ({ app with log := app.log ++ ["Can\x27t get on-screen pixbuf"] }, none)
  | some imagePixbuf =>
    let allocation := app.Window.allocation
    if allocation.width ≠ imagePixbuf.width ∨ allocation.height ≠ imagePixbuf.height then
      let app1 := { app with
        trace := app.trace ++
          [GdkCall.scale sourcePixbuf allocation.width allocation.height InterpType.INTERP_BILINEAR] }
      match gdk.ScaleSimple sourcePixbuf allocation.width allocation.height
          InterpType.INTERP_BILINEAR with
      | none =>
        ({ app1 with
            status := Status.fatal, log := app1.log ++ ["cgo returned unexpected nil pointer"] },
          none)
      | some pixbuf => (app1, some pixbuf)
    else (app, none)

/-- Go: `App.getBackground(width, height)`.  The result is `Except.error` when
`log.Fatal` is reached; otherwise the image stored in `app.BackgroundImage`
(`none` when it is left `nil`), the returned source pixbuf (`none` for `nil`)
and the toolkit calls made.  The error of `PixbufCopy` is discarded, as in the
source. -/
def getBackground (gdk : Gdk) (cfg : Config) (width height : Int) :
    Except String (Option Image × Option Pixbuf × List GdkCall) :=
  if cfg.Background.Source = "" then .ok (none, none, [])
  else
    match gdk.PixbufNewFromFileAtScale cfg.Background.Source width height
        cfg.Background.PreserveAspectRatio with
    | none => .error "Unable to load image:"
    | some sourcePixbuf =>
      let pixbuf := gdk.PixbufCopy sourcePixbuf
      let img : Image := { pixbuf := pixbuf, sizeRequest := (-1, -1) }
      .ok (some img, some sourcePixbuf,
        [GdkCall.load cfg.Background.Source width height cfg.Background.PreserveAspectRatio,
         GdkCall.copy sourcePixbuf])

/-- Go: `App.getTerminal()`, the widget part: font, encoding and the command
handed to `ExecAsync`.  The two `Connect` calls are the `childExited` and
`windowTitleChanged` cases of `dispatch`. -/
def getTerminal (env : Environ) (cfg : Config) : VteTerminal :=
  let shell := Getenv env "SHELL"
  { font := cfg.Terminal.Font
    encoding := "UTF-8"
    execArgs := [shell]
    execTimeout := -1
    windowTitle := ""
    sizeRequest := (-1, -1) }

/-- Go: `App.getTermWindow()`.  `win.Connect("destroy", gtk.MainQuit)` is the
`destroy` case of `dispatch`. -/
def getTermWindow (cfg : Config) : Window :=
  { title := "TermLeek"
    defaultSize := (cfg.Terminal.MinWidth, cfg.Terminal.MinHeight)
    sizeRequest := (cfg.Terminal.MinWidth, cfg.Terminal.MinHeight)
    centered := true
    resizable := true
    icon := if cfg.Terminal.Icon ≠ "" then some cfg.Terminal.Icon else none
    allocation := { width := 1, height := 1 } }

/-- Go: `App.setupWindow()`.  `Except.error` is a `log.Fatal` during set-up. -/
def setupWindow (gdk : Gdk) (env : Environ) (cfg : Config) : Except String World :=
  let window := getTermWindow cfg
  match getBackground gdk cfg cfg.Terminal.MinWidth cfg.Terminal.MinHeight with
  | .error e => .error e
  | .ok (backgroundImage, sourcePixbuf, calls) =>
    let terminal := getTerminal env cfg
    let scrolledWindow : ScrolledWindow :=
      { hexpand := true, vexpand := true, sizeRequest := (-1, -1) }
    let layout : List Widget := []
    let (layout, backgroundImage) :=
      if sourcePixbuf ≠ none then
        (layout ++ [Widget.backgroundImage],
         backgroundImage.map (fun img =>
           { img with sizeRequest := (cfg.Terminal.MinWidth, cfg.Terminal.MinHeight) }))
      else (layout, backgroundImage)
    let scrolledWindow :=
      { scrolledWindow with sizeRequest := (cfg.Terminal.MinWidth, cfg.Terminal.MinHeight) }
    let layout := layout ++ [Widget.scrolledWindow]
    .ok { Config := cfg
          Window := window
          BackgroundImage := backgroundImage
          terminal := terminal
          scrolledWindow := scrolledWindow
          layout := layout
          sizeAllocate := if sourcePixbuf ≠ none then sourcePixbuf else none
          status := Status.running
          trace := calls
          log := [] }

/-- Go: the closure connected to `size-allocate` in `setupWindow`, lines 214-223. -/
def onSizeAllocate (gdk : Gdk) (app : World) (sourcePixbuf : Pixbuf) : World :=
  match resizeImage gdk app sourcePixbuf with
  | (app1, some pixbuf) =>
    let w := app1.Window.allocation.width
    let h := app1.Window.allocation.height
    { app1 with
      BackgroundImage := app1.BackgroundImage.map (fun img => { img with pixbuf := some pixbuf })
      scrolledWindow := { app1.scrolledWindow with sizeRequest := (w, h) }
      terminal := { app1.terminal with sizeRequest := (w, h) } }
  | (app1, none) => app1

/-! ## Events and the main loop -/

/-- The signals the program connects a handler to, and the `OnExec` callback. -/
inductive Event where
  | sizeAllocate (allocation : Allocation)
  | childExited
  | windowTitleChanged (title : String)
  | destroy
  | onExec (pid : Int) (err : Option String)
deriving DecidableEq, Repr

/-- Go: `gtk.MainQuit()`. -/
def MainQuit (app : World) : World :=
  { app with status := Status.quit }

/-- One event delivered by the toolkit to the handler connected for it.
`sizeAllocate a`: the window's allocation becomes `a`, then the closure runs if
it was connected.  `windowTitleChanged t`: the terminal's title becomes `t`,
then the closure of `getTerminal` copies it to the window. -/
def dispatch (gdk : Gdk) (app : World) : Event → World
  | .sizeAllocate allocation =>
    let app1 := { app with Window := { app.Window with allocation := allocation } }
    match app1.sizeAllocate with
    | some sourcePixbuf => onSizeAllocate gdk app1 sourcePixbuf
    | none => app1
  | .childExited => MainQuit app
  | .windowTitleChanged title =>
    let app1 := { app with terminal := { app.terminal with windowTitle := title } }
    { app1 with Window := { app1.Window with title := app1.terminal.windowTitle } }
  | .destroy => MainQuit app
  | .onExec _ err =>
    match err with
    | some e => { app with status := Status.fatal, log := app.log ++ [e] }
    | none => app

/-- Go: `gtk.Main()`: events are dispatched, each to completion, until the loop
is quit or the process has exited. -/
def mainLoop (gdk : Gdk) (app : World) : List Event → World
  | [] => app
  | e :: es => if app.status = Status.running then mainLoop gdk (dispatch gdk app e) es else app

/-- Go: `main`, after `ini.Load` (`none` when it fails): exit code 1 for a
configuration failure, otherwise the world when the events have been handled. -/
def main (gdk : Gdk) (env : Environ) (notExist : String → Bool) (ini : Option IniFile)
    (events : List Event) : Except Nat World :=
  match ini with
  | none => .error 1
  | some cfg =>
    match loadConfig notExist cfg with
    | .error code => .error code
    | .ok config =>
      match setupWindow gdk env config with
      | .error _ => .error 1
      | .ok app => .ok (mainLoop gdk app events)

/-! ## Derived worlds, used to state what the handlers do -/

/-- The world with the `preserve_aspect_ratio` flag of its configuration set to `b`. -/
def withPreserve (b : Bool) (app : World) : World :=
  { app with Config := { app.Config with
      Background := { app.Config.Background with PreserveAspectRatio := b } } }

/-- The pixbuf on screen: `app.BackgroundImage.GetPixbuf()`. -/
def displayed (app : World) : Option Pixbuf :=
  app.BackgroundImage.bind (fun img => img.pixbuf)

/-- The world in which the window has been given the allocation `a`. -/
def allocated (app : World) (a : Allocation) : World :=
  { app with Window := { app.Window with allocation := a } }

/-- The world in which `ScaleSimple` has been requested for the full allocation. -/
def scaleRequested (app : World) (src : Pixbuf) : World :=
  { app with trace := app.trace ++
      [GdkCall.scale src app.Window.allocation.width app.Window.allocation.height
        InterpType.INTERP_BILINEAR] }

/-- The world after a rescale: the new pixbuf is on screen and the scrolled
window and the terminal request the allocation. -/
def rescaled (app : World) (src q : Pixbuf) : World :=
  { scaleRequested app src with
    BackgroundImage := app.BackgroundImage.map (fun img => { img with pixbuf := some q })
    scrolledWindow := { app.scrolledWindow with
      sizeRequest := (app.Window.allocation.width, app.Window.allocation.height) }
    terminal := { app.terminal with
      sizeRequest := (app.Window.allocation.width, app.Window.allocation.height) } }

/-- The ini file of the scenario `min_width = 100`, with `min_height = 500`. -/
def iniSmallWidth : IniFile :=
  { source := "", preserve_aspect_ratio := none, font := "", min_width := some 100,
    min_height := some 500, icon := "" }

/-! ## Toolkit contracts used as hypotheses -/

/-- A successful `ScaleSimple(w, h)` returns a pixbuf of exactly `w` by `h`. -/
def ScaleExact (gdk : Gdk) : Prop :=
  ∀ src w h interp q, gdk.ScaleSimple src w h interp = some q → q.width = w ∧ q.height = h

/-- What every running world built around the source pixbuf `src` and the
start-up image `p0` satisfies, `m` being the minimum size: either no rescale
has been requested, the scrolled window requests `m` and `p0` is on screen; or
a rescale has been requested, and the image on screen is `src` scaled to the
size the scrolled window requests. -/
def Synced (gdk : Gdk) (src p0 : Pixbuf) (m : Int × Int) (app : World) : Prop :=
  ((∀ c ∈ app.trace, c.isScale = false) ∧ app.scrolledWindow.sizeRequest = m ∧
      displayed app = some p0) ∨
  ((∃ c ∈ app.trace, c.isScale = true) ∧ ∃ p, displayed app = some p ∧
      app.scrolledWindow.sizeRequest = (p.width, p.height) ∧
      gdk.ScaleSimple src p.width p.height InterpType.INTERP_BILINEAR = some p)

/-! ## A simulated toolkit, for evaluation on concrete inputs -/

/-- The size of a `nw` by `nh` picture fitted into a `w` by `h` box with its
aspect ratio kept. -/
def aspectFit (nw nh w h : Int) : Int × Int :=
  if nw * h ≤ nh * w then (nw * h / nh, h) else (w, nh * w / nw)

/-- A toolkit in which every file is a `nw` by `nh` picture: loading fits or
stretches it, copying succeeds, and scaling succeeds for positive sizes. -/
def simGdk (nw nh : Int) : Gdk where
  PixbufNewFromFileAtScale := fun _ w h preserve =>
    if preserve then
      some { width := (aspectFit nw nh w h).1, height := (aspectFit nw nh w h).2, pixels := [0] }
    else some { width := w, height := h, pixels := [0] }
  PixbufCopy := fun src => some src
  ScaleSimple := fun src w h _ =>
    if w = src.width ∧ h = src.height then some src
    else if 0 < w ∧ 0 < h then
      some { width := w, height := h, pixels := src.pixels ++ [w.toNat, h.toNat] }
    else none

/-- The simulated toolkit with `PixbufCopy` failing: it returns nil with an error. -/
def simGdkNoCopy (nw nh : Int) : Gdk :=
  { simGdk nw nh with PixbufCopy := fun _ => none }

/-- A configuration with a background, `preserve_aspect_ratio = true`, 680 by 370. -/
def cfgPreserve : Config :=
  { Background := { Source := "bg.png", PreserveAspectRatio := true }
    Terminal := { MinWidth := 680, MinHeight := 370, Icon := "", Font := "monospace 10" } }

/-- A configuration with a background, `preserve_aspect_ratio = false`, 680 by 370. -/
def cfgStretch : Config :=
  { Background := { Source := "bg.png", PreserveAspectRatio := false }
    Terminal := { MinWidth := 680, MinHeight := 370, Icon := "", Font := "monospace 10" } }

/-- A configuration without a background. -/
def cfgPlain : Config :=
  { Background := { Source := "", PreserveAspectRatio := false }
    Terminal := { MinWidth := 680, MinHeight := 370, Icon := "", Font := "monospace 10" } }

/-! ## Lemmas on the main loop -/

theorem mainLoop_stopped (gdk : Gdk) (app : World) (es : List Event)
    (h : app.status ≠ Status.running) : mainLoop gdk app es = app := by
  cases es with
  | nil => rfl
  | cons e es => simp [mainLoop, h]

theorem mainLoop_append (gdk : Gdk) (app : World) (xs ys : List Event) :
    mainLoop gdk app (xs ++ ys) = mainLoop gdk (mainLoop gdk app xs) ys := by
  induction xs generalizing app with
  | nil => rfl
  | cons e es ih =>
    by_cases h : app.status = Status.running
    · simp [mainLoop, h, ih]
    · have h1 : mainLoop gdk app (e :: es ++ ys) = app := mainLoop_stopped gdk app _ h
      have h2 : mainLoop gdk app (e :: es) = app := mainLoop_stopped gdk app _ h
      rw [h1, h2, mainLoop_stopped gdk app ys h]

theorem mainLoop_single (gdk : Gdk) (app : World) (e : Event)
    (h : app.status = Status.running) : mainLoop gdk app [e] = dispatch gdk app e := by
  simp [mainLoop, h]

/-- When the loop still runs after `evs ++ [e]`, it ran after `evs` and `e` was dispatched. -/
theorem mainLoop_snoc (gdk : Gdk) (app : World) (evs : List Event) (e : Event)
    (h : (mainLoop gdk app (evs ++ [e])).status = Status.running) :
    (mainLoop gdk app evs).status = Status.running ∧
      mainLoop gdk app (evs ++ [e]) = dispatch gdk (mainLoop gdk app evs) e := by
  rw [mainLoop_append] at h ⊢
  by_cases hr : (mainLoop gdk app evs).status = Status.running
  · exact ⟨hr, mainLoop_single gdk _ e hr⟩
  · rw [mainLoop_stopped gdk _ [e] hr] at h
    exact absurd h hr

/-- A property kept by every handler is kept by the main loop. -/
theorem mainLoop_invariant (gdk : Gdk) (P : World → Prop)
    (hstep : ∀ app e, app.status = Status.running → P app → P (dispatch gdk app e))
    (app : World) (es : List Event) (h : P app) : P (mainLoop gdk app es) := by
  induction es generalizing app with
  | nil => exact h
  | cons e es ih =>
    by_cases hr : app.status = Status.running
    · simp only [mainLoop, hr, if_true]
      exact ih _ (hstep app e hr h)
    · rw [mainLoop_stopped gdk app _ hr]
      exact h

/-! ## The four outcomes of the `size-allocate` handler -/

theorem resizeImage_nil (gdk : Gdk) (app : World) (src : Pixbuf) (h : displayed app = none) :
    resizeImage gdk app src =
      ({ app with log := app.log ++ ["Can\x27t get on-screen pixbuf"] }, none) := by
  unfold displayed at h
  simp [resizeImage, h]

theorem resizeImage_same (gdk : Gdk) (app : World) (src p : Pixbuf)
    (h : displayed app = some p) (hw : app.Window.allocation.width = p.width)
    (hh : app.Window.allocation.height = p.height) :
    resizeImage gdk app src = (app, none) := by
  unfold displayed at h
  simp [resizeImage, h, hw, hh]

theorem resizeImage_failed (gdk : Gdk) (app : World) (src p : Pixbuf)
    (h : displayed app = some p)
    (hd : app.Window.allocation.width ≠ p.width ∨ app.Window.allocation.height ≠ p.height)
    (hs : gdk.ScaleSimple src app.Window.allocation.width app.Window.allocation.height
      InterpType.INTERP_BILINEAR = none) :
    resizeImage gdk app src =
      ({ scaleRequested app src with
          status := Status.fatal, log := app.log ++ ["cgo returned unexpected nil pointer"] }, none) := by
  unfold displayed at h
  simp [resizeImage, h, hd, hs, scaleRequested]

theorem resizeImage_scaled (gdk : Gdk) (app : World) (src p q : Pixbuf)
    (h : displayed app = some p)
    (hd : app.Window.allocation.width ≠ p.width ∨ app.Window.allocation.height ≠ p.height)
    (hs : gdk.ScaleSimple src app.Window.allocation.width app.Window.allocation.height
      InterpType.INTERP_BILINEAR = some q) :
    resizeImage gdk app src = (scaleRequested app src, some q) := by
  unfold displayed at h
  simp [resizeImage, h, hd, hs, scaleRequested]

theorem onSizeAllocate_nil (gdk : Gdk) (app : World) (src : Pixbuf) (h : displayed app = none) :
    onSizeAllocate gdk app src =
      { app with log := app.log ++ ["Can\x27t get on-screen pixbuf"] } := by
  simp [onSizeAllocate, resizeImage_nil gdk app src h]

theorem onSizeAllocate_same (gdk : Gdk) (app : World) (src p : Pixbuf)
    (h : displayed app = some p) (hw : app.Window.allocation.width = p.width)
    (hh : app.Window.allocation.height = p.height) :
    onSizeAllocate gdk app src = app := by
  simp [onSizeAllocate, resizeImage_same gdk app src p h hw hh]

theorem onSizeAllocate_failed (gdk : Gdk) (app : World) (src p : Pixbuf)
    (h : displayed app = some p)
    (hd : app.Window.allocation.width ≠ p.width ∨ app.Window.allocation.height ≠ p.height)
    (hs : gdk.ScaleSimple src app.Window.allocation.width app.Window.allocation.height
      InterpType.INTERP_BILINEAR = none) :
    onSizeAllocate gdk app src =
      { scaleRequested app src with
          status := Status.fatal, log := app.log ++ ["cgo returned unexpected nil pointer"] } := by
  simp [onSizeAllocate, resizeImage_failed gdk app src p h hd hs]

theorem onSizeAllocate_scaled (gdk : Gdk) (app : World) (src p q : Pixbuf)
    (h : displayed app = some p)
    (hd : app.Window.allocation.width ≠ p.width ∨ app.Window.allocation.height ≠ p.height)
    (hs : gdk.ScaleSimple src app.Window.allocation.width app.Window.allocation.height
      InterpType.INTERP_BILINEAR = some q) :
    onSizeAllocate gdk app src = rescaled app src q := by
  simp [onSizeAllocate, resizeImage_scaled gdk app src p q h hd hs, rescaled, scaleRequested]

theorem displayed_rescaled (app : World) (src p q : Pixbuf) (h : displayed app = some p) :
    displayed (rescaled app src q) = some q := by
  unfold displayed at h ⊢
  cases hb : app.BackgroundImage with
  | none => simp [hb] at h
  | some img => simp [rescaled, scaleRequested, hb]

theorem dispatch_sizeAllocate (gdk : Gdk) (app : World) (a : Allocation) (src : Pixbuf)
    (h : app.sizeAllocate = some src) :
    dispatch gdk app (Event.sizeAllocate a) = onSizeAllocate gdk (allocated app a) src := by
  simp [dispatch, allocated, h]

theorem dispatch_sizeAllocate_none (gdk : Gdk) (app : World) (a : Allocation)
    (h : app.sizeAllocate = none) :
    dispatch gdk app (Event.sizeAllocate a) = allocated app a := by
  simp [dispatch, allocated, h]

/-- The outcomes of a `size-allocate` event when the closure is connected. -/
theorem sizeAllocate_cases (gdk : Gdk) (app : World) (a : Allocation) (src : Pixbuf)
    (h : app.sizeAllocate = some src) :
    (displayed app = none ∧ dispatch gdk app (Event.sizeAllocate a) =
        { allocated app a with
          log := app.log ++ ["Can\x27t get on-screen pixbuf"] }) ∨
    (∃ p, displayed app = some p ∧ a.width = p.width ∧ a.height = p.height ∧
        dispatch gdk app (Event.sizeAllocate a) = allocated app a) ∨
    (∃ p, displayed app = some p ∧ (a.width ≠ p.width ∨ a.height ≠ p.height) ∧
        gdk.ScaleSimple src a.width a.height InterpType.INTERP_BILINEAR = none ∧
        dispatch gdk app (Event.sizeAllocate a) =
          { scaleRequested (allocated app a) src with
            status := Status.fatal, log := app.log ++ ["cgo returned unexpected nil pointer"] }) ∨
    (∃ p q, displayed app = some p ∧ (a.width ≠ p.width ∨ a.height ≠ p.height) ∧
        gdk.ScaleSimple src a.width a.height InterpType.INTERP_BILINEAR = some q ∧
        dispatch gdk app (Event.sizeAllocate a) = rescaled (allocated app a) src q) := by
  rw [dispatch_sizeAllocate gdk app a src h]
  have hdisp : displayed (allocated app a) = displayed app := rfl
  cases hp : displayed app with
  | none =>
    left
    exact ⟨rfl, onSizeAllocate_nil gdk _ src (hdisp.trans hp)⟩
  | some p =>
    right
    by_cases hd : a.width ≠ p.width ∨ a.height ≠ p.height
    · right
      cases hs : gdk.ScaleSimple src a.width a.height InterpType.INTERP_BILINEAR with
      | none =>
        left
        exact ⟨p, rfl, hd, rfl, onSizeAllocate_failed gdk _ src p (hdisp.trans hp) hd hs⟩
      | some q =>
        right
        exact ⟨p, q, rfl, hd, rfl, onSizeAllocate_scaled gdk _ src p q (hdisp.trans hp) hd hs⟩
    · left
      have hw : a.width = p.width := by
        by_contra hne
        exact hd (Or.inl hne)
      have hh : a.height = p.height := by
        by_contra hne
        exact hd (Or.inr hne)
      exact ⟨p, rfl, hw, hh, onSizeAllocate_same gdk _ src p (hdisp.trans hp) hw hh⟩

/-- No handler returns a stopped process to the running state. -/
theorem dispatch_stays_stopped (gdk : Gdk) (app : World) (e : Event)
    (h : app.status ≠ Status.running) : (dispatch gdk app e).status ≠ Status.running := by
  cases e with
  | sizeAllocate a =>
    cases hsrc : app.sizeAllocate with
    | none => rw [dispatch_sizeAllocate_none gdk app a hsrc]; exact h
    | some src =>
      rcases sizeAllocate_cases gdk app a src hsrc with
        ⟨_, hd⟩ | ⟨_, _, _, _, hd⟩ | ⟨_, _, _, _, hd⟩ | ⟨_, _, _, _, _, hd⟩
      · rw [hd]; exact h
      · rw [hd]; exact h
      · rw [hd]; exact fun hf => Status.noConfusion hf
      · rw [hd]; exact h
  | childExited => exact fun hf => Status.noConfusion hf
  | windowTitleChanged t => exact h
  | destroy => exact fun hf => Status.noConfusion hf
  | onExec pid err =>
    cases err with
    | none => exact h
    | some e => exact fun hf => Status.noConfusion hf

/-! ## What the handlers leave alone -/

theorem dispatch_sizeAllocate_field (gdk : Gdk) (app : World) (e : Event) :
    (dispatch gdk app e).sizeAllocate = app.sizeAllocate := by
  cases e with
  | sizeAllocate a =>
    cases hsrc : app.sizeAllocate with
    | none => rw [dispatch_sizeAllocate_none gdk app a hsrc]; exact hsrc
    | some src =>
      rcases sizeAllocate_cases gdk app a src hsrc with
        ⟨_, h⟩ | ⟨_, _, _, _, h⟩ | ⟨_, _, _, _, h⟩ | ⟨_, _, _, _, _, h⟩ <;>
        rw [h] <;> exact hsrc
  | childExited => rfl
  | windowTitleChanged t => rfl
  | destroy => rfl
  | onExec pid err => cases err <;> rfl

theorem dispatch_Config (gdk : Gdk) (app : World) (e : Event) :
    (dispatch gdk app e).Config = app.Config := by
  cases e with
  | sizeAllocate a =>
    cases hsrc : app.sizeAllocate with
    | none => rw [dispatch_sizeAllocate_none gdk app a hsrc]; rfl
    | some src =>
      rcases sizeAllocate_cases gdk app a src hsrc with
        ⟨_, h⟩ | ⟨_, _, _, _, h⟩ | ⟨_, _, _, _, h⟩ | ⟨_, _, _, _, _, h⟩ <;>
        rw [h] <;> rfl
  | childExited => rfl
  | windowTitleChanged t => rfl
  | destroy => rfl
  | onExec pid err => cases err <;> rfl

theorem mainLoop_sizeAllocate_field (gdk : Gdk) (app : World) (es : List Event) :
    (mainLoop gdk app es).sizeAllocate = app.sizeAllocate :=
  mainLoop_invariant gdk (fun w => w.sizeAllocate = app.sizeAllocate)
    (fun w e _ hw => (dispatch_sizeAllocate_field gdk w e).trans hw) app es rfl

/-- Events other than `size-allocate` leave the image, the scrolled window and the trace alone. -/
theorem dispatch_other (gdk : Gdk) (app : World) (e : Event)
    (he : ∀ a, e ≠ Event.sizeAllocate a) :
    (dispatch gdk app e).BackgroundImage = app.BackgroundImage ∧
      (dispatch gdk app e).scrolledWindow = app.scrolledWindow ∧
      (dispatch gdk app e).trace = app.trace := by
  cases e with
  | sizeAllocate a => exact absurd rfl (he a)
  | childExited => exact ⟨rfl, rfl, rfl⟩
  | windowTitleChanged t => exact ⟨rfl, rfl, rfl⟩
  | destroy => exact ⟨rfl, rfl, rfl⟩
  | onExec pid err => cases err <;> exact ⟨rfl, rfl, rfl⟩

/-! ## The state built by `setupWindow` -/

/-- With a background configured, a successful `setupWindow` has loaded the
source pixbuf at the minimum size, put a copy of it on screen, and connected
the `size-allocate` closure over the source pixbuf. -/
theorem setupWindow_background (gdk : Gdk) (env : Environ) (cfg : Config) (s0 : World)
    (hbg : cfg.Background.Source ≠ "") (hsetup : setupWindow gdk env cfg = .ok s0) :
    ∃ src, gdk.PixbufNewFromFileAtScale cfg.Background.Source cfg.Terminal.MinWidth
          cfg.Terminal.MinHeight cfg.Background.PreserveAspectRatio = some src ∧
      s0.sizeAllocate = some src ∧
      displayed s0 = gdk.PixbufCopy src ∧
      s0.trace = [GdkCall.load cfg.Background.Source cfg.Terminal.MinWidth
          cfg.Terminal.MinHeight cfg.Background.PreserveAspectRatio, GdkCall.copy src] ∧
      s0.scrolledWindow.sizeRequest = (cfg.Terminal.MinWidth, cfg.Terminal.MinHeight) ∧
      s0.layout = [Widget.backgroundImage, Widget.scrolledWindow] ∧
      s0.status = Status.running ∧ s0.Config = cfg := by
  cases hload : gdk.PixbufNewFromFileAtScale cfg.Background.Source cfg.Terminal.MinWidth
      cfg.Terminal.MinHeight cfg.Background.PreserveAspectRatio with
  | none => simp [setupWindow, getBackground, hbg, hload] at hsetup
  | some src =>
    simp [setupWindow, getBackground, hbg, hload] at hsetup
    subst hsetup
    exact ⟨src, rfl, rfl, by simp [displayed], rfl, rfl, rfl, rfl, rfl⟩

/-- Without a background, `setupWindow` succeeds and makes no toolkit call. -/
theorem setupWindow_plain (gdk : Gdk) (env : Environ) (cfg : Config)
    (hbg : cfg.Background.Source = "") :
    ∃ s0, setupWindow gdk env cfg = .ok s0 ∧ s0.BackgroundImage = none ∧
      s0.layout = [Widget.scrolledWindow] ∧ s0.sizeAllocate = none ∧ s0.trace = [] ∧
      s0.status = Status.running := by
  simp [setupWindow, getBackground, hbg]

/-! ## C1: the minimum-size clamp -/

/-- C1. For every ini file whose referenced files exist, `main` resolves a
configuration; a configured `min_width = w` resolves to 340 when `w < 340` and
to `w` when `340 ≤ w`, a configured `min_height = h` resolves to 185 when
`h < 185` and to `h` when `185 ≤ h`, and for every input the resolved
`MinWidth` is at least 340 and the resolved `MinHeight` at least 185. -/
theorem min_size_clamp (notExist : String → Bool) (cfg : IniFile)
    (hsource : cfg.source ≠ "" → notExist cfg.source = false)
    (hicon : cfg.icon ≠ "" → notExist cfg.icon = false) :
    ∃ config, loadConfig notExist cfg = .ok config ∧
      (∀ w, cfg.min_width = some w →
        (w < 340 → config.Terminal.MinWidth = 340) ∧
        (340 ≤ w → config.Terminal.MinWidth = w)) ∧
      (∀ h, cfg.min_height = some h →
        (h < 185 → config.Terminal.MinHeight = 185) ∧
        (185 ≤ h → config.Terminal.MinHeight = h)) ∧
      340 ≤ config.Terminal.MinWidth ∧ 185 ≤ config.Terminal.MinHeight := by
  have h1 : ¬ (MustString cfg.source "" ≠ "" ∧ notExist (MustString cfg.source "") = true) := by
    rintro ⟨hne, hex⟩
    have hs : MustString cfg.source "" = cfg.source := by
      unfold MustString
      split
      · next h => exact h.symm
      · rfl
    rw [hs] at hne hex
    rw [hsource hne] at hex
    exact Bool.noConfusion hex
  have h2 : ¬ (MustString cfg.icon "" ≠ "" ∧ notExist (MustString cfg.icon "") = true) := by
    rintro ⟨hne, hex⟩
    have hs : MustString cfg.icon "" = cfg.icon := by
      unfold MustString
      split
      · next h => exact h.symm
      · rfl
    rw [hs] at hne hex
    rw [hicon hne] at hex
    exact Bool.noConfusion hex
  have hload : loadConfig notExist cfg = .ok
      { Background := { Source := MustString cfg.source "",
                        PreserveAspectRatio := MustBool cfg.preserve_aspect_ratio }
        Terminal := { MinWidth := clampMinWidth (MustInt cfg.min_width 680),
                      MinHeight := clampMinHeight (MustInt cfg.min_height 370),
                      Icon := MustString cfg.icon "",
                      Font := MustString cfg.font "monospace 10" } } := by
    simp only [loadConfig, if_neg h1, if_neg h2]
  refine ⟨_, hload, ?_, ?_, ?_, ?_⟩
  · intro w hw
    simp only [hw, MustInt, Option.getD_some, clampMinWidth, minWidth]
    constructor
    · intro hlt
      rw [if_pos hlt]
    · intro hge
      rw [if_neg (not_lt.mpr hge)]
  · intro h hh
    simp only [hh, MustInt, Option.getD_some, clampMinHeight, minHeight]
    constructor
    · intro hlt
      rw [if_pos hlt]
    · intro hge
      rw [if_neg (not_lt.mpr hge)]
  · simp only [clampMinWidth, minWidth]
    split
    · exact le_refl _
    · next hlt => exact not_lt.mp hlt
  · simp only [clampMinHeight, minHeight]
    split
    · exact le_refl _
    · next hlt => exact not_lt.mp hlt

/-- C1 at `min_width = 100`, `min_height = 500`: the hypotheses hold and the
resolved sizes are 340 and 500. -/
theorem min_size_clamp_witness :
    ∃ config, loadConfig (fun _ => false) iniSmallWidth = .ok config ∧
      config.Terminal.MinWidth = 340 ∧ config.Terminal.MinHeight = 500 := by
  obtain ⟨config, hc, hw, hh, _, _⟩ :=
    min_size_clamp (fun _ => false) iniSmallWidth (fun _ => rfl) (fun _ => rfl)
  exact ⟨config, hc, (hw 100 rfl).1 (by decide), (hh 500 rfl).2 (by decide)⟩

/-! ## C7: no background configured -/

/-- C7. When `Config.Background.Source` is empty, `getBackground` returns nil
and calls nothing, `setupWindow` succeeds with a layout holding only the
scrolled window, no background image and no `size-allocate` closure, and after
every sequence of events the trace of toolkit calls is still empty. -/
theorem no_background (gdk : Gdk) (env : Environ) (cfg : Config)
    (hbg : cfg.Background.Source = "") :
    (∀ width height, getBackground gdk cfg width height = .ok (none, none, [])) ∧
    ∃ s0, setupWindow gdk env cfg = .ok s0 ∧ s0.BackgroundImage = none ∧
      s0.layout = [Widget.scrolledWindow] ∧ s0.sizeAllocate = none ∧ s0.trace = [] ∧
      ∀ evs, (mainLoop gdk s0 evs).trace = [] ∧ (mainLoop gdk s0 evs).BackgroundImage = none := by
  refine ⟨fun width height => by simp [getBackground, hbg], ?_⟩
  obtain ⟨s0, hs0, himg, hlay, hconn, htr, _⟩ := setupWindow_plain gdk env cfg hbg
  refine ⟨s0, hs0, himg, hlay, hconn, htr, fun evs => ?_⟩
  have hinv := mainLoop_invariant gdk
    (fun w => w.sizeAllocate = none ∧ w.trace = [] ∧ w.BackgroundImage = none)
    (fun w e _ hw => by
      obtain ⟨hc, ht, hi⟩ := hw
      refine ⟨(dispatch_sizeAllocate_field gdk w e).trans hc, ?_, ?_⟩
      · cases e with
        | sizeAllocate a => rw [dispatch_sizeAllocate_none gdk w a hc]; exact ht
        | childExited => exact ht
        | windowTitleChanged t => exact ht
        | destroy => exact ht
        | onExec pid err => cases err <;> exact ht
      · cases e with
        | sizeAllocate a => rw [dispatch_sizeAllocate_none gdk w a hc]; exact hi
        | childExited => exact hi
        | windowTitleChanged t => exact hi
        | destroy => exact hi
        | onExec pid err => cases err <;> exact hi)
    s0 evs ⟨hconn, htr, himg⟩
  exact ⟨hinv.2.1, hinv.2.2⟩

/-- C7 at the configuration without a background, resized twice in a toolkit
where every call would succeed: the trace stays empty. -/
theorem no_background_witness :
    ∃ s0, setupWindow (simGdk 680 300) [] cfgPlain = .ok s0 ∧
      s0.layout = [Widget.scrolledWindow] ∧
      (mainLoop (simGdk 680 300) s0
        [Event.sizeAllocate ⟨800, 400⟩, Event.sizeAllocate ⟨900, 500⟩]).trace = [] := by
  obtain ⟨_, s0, hs0, _, hlay, _, _, hall⟩ := no_background (simGdk 680 300) [] cfgPlain rfl
  exact ⟨s0, hs0, hlay, (hall _).1⟩

/-! ## C8: title propagation -/

/-- C8. A `window-title-changed` event reporting `t` sets the window title to
exactly `t`; after any events that leave the loop running, a title event makes
the title the reported string; and after a non-empty sequence of title events
the title is the string of the last one. -/
theorem title_propagation (gdk : Gdk) (app : World) (hrun : app.status = Status.running) :
    (∀ t, (dispatch gdk app (Event.windowTitleChanged t)).Window.title = t) ∧
    (∀ evs t, (mainLoop gdk app evs).status = Status.running →
      (mainLoop gdk app (evs ++ [Event.windowTitleChanged t])).Window.title = t) ∧
    (∀ (ts : List String) (hne : ts ≠ []),
      (mainLoop gdk app (ts.map Event.windowTitleChanged)).Window.title = ts.getLast hne) := by
  refine ⟨fun t => rfl, fun evs t hr => ?_, fun ts hne => ?_⟩
  · rw [mainLoop_append, mainLoop_single gdk _ _ hr]
    rfl
  · induction ts generalizing app with
    | nil => exact absurd rfl hne
    | cons t ts ih =>
      cases ts with
      | nil => simp [mainLoop, hrun, dispatch]
      | cons u us =>
        have hstep : (dispatch gdk app (Event.windowTitleChanged t)).status = Status.running :=
          hrun
        have hlast := ih (dispatch gdk app (Event.windowTitleChanged t)) hstep (by simp)
        have hcons : mainLoop gdk app ((t :: u :: us).map Event.windowTitleChanged) =
            mainLoop gdk (dispatch gdk app (Event.windowTitleChanged t))
              ((u :: us).map Event.windowTitleChanged) := by
          simp only [List.map_cons, mainLoop, hrun, if_true]
        rw [hcons, List.getLast_cons (by simp)]
        exact hlast

/-- C8 at the title "user@host:~", reported after an earlier title, from the
plain set-up. -/
theorem title_propagation_witness :
    ∃ s0, setupWindow (simGdk 680 300) [] cfgPlain = .ok s0 ∧
      (mainLoop (simGdk 680 300) s0
        (["old", "user@host:~"].map Event.windowTitleChanged)).Window.title = "user@host:~" := by
  obtain ⟨s0, hs0, _, _, _, _, hrun⟩ := setupWindow_plain (simGdk 680 300) [] cfgPlain rfl
  exact ⟨s0, hs0, (title_propagation (simGdk 680 300) s0 hrun).2.2 ["old", "user@host:~"]
    (by simp)⟩

/-! ## C9: exit coupling -/

/-- C9. In every state in which the loop still runs after the events `evs`
(from any starting world, so with or without a background), the
`child-exited` handler is `gtk.MainQuit`, the loop is quit after it whatever
events follow, no handler returns a stopped process to the running state, and
the main loop leaves a quit world unchanged. -/
theorem exit_coupling (gdk : Gdk) (app : World) (evs : List Event)
    (hrun : (mainLoop gdk app evs).status = Status.running) :
    dispatch gdk (mainLoop gdk app evs) Event.childExited = MainQuit (mainLoop gdk app evs) ∧
    (∀ later, (mainLoop gdk app (evs ++ Event.childExited :: later)).status = Status.quit) ∧
    (∀ (w : World) (e : Event), w.status ≠ Status.running →
      (dispatch gdk w e).status ≠ Status.running) ∧
    (∀ (w : World) (later : List Event), w.status = Status.quit → mainLoop gdk w later = w) := by
  refine ⟨rfl, fun later => ?_, fun w e hw => dispatch_stays_stopped gdk w e hw,
    fun w later hw => mainLoop_stopped gdk w later (by rw [hw]; decide)⟩
  rw [mainLoop_append]
  have hq : (dispatch gdk (mainLoop gdk app evs) Event.childExited).status ≠ Status.running := by
    simp [dispatch, MainQuit]
  simp only [mainLoop, hrun, if_true]
  rw [mainLoop_stopped gdk _ later hq]
  rfl

/-- C9 from the set-up with a background, after a resize and a title change:
the child exits and a later resize does not restart the loop. -/
theorem exit_coupling_witness :
    ∃ s0, setupWindow (simGdk 680 300) [] cfgPreserve = .ok s0 ∧
      (mainLoop (simGdk 680 300) s0
        [Event.sizeAllocate ⟨800, 400⟩, Event.windowTitleChanged "sh"]).status
          = Status.running ∧
      (mainLoop (simGdk 680 300) s0
        ([Event.sizeAllocate ⟨800, 400⟩, Event.windowTitleChanged "sh"] ++
          Event.childExited :: [Event.sizeAllocate ⟨900, 500⟩])).status = Status.quit := by
  refine ⟨_, rfl, by decide, ?_⟩
  exact (exit_coupling (simGdk 680 300) _
    [Event.sizeAllocate ⟨800, 400⟩, Event.windowTitleChanged "sh"] (by decide)).2.1
      [Event.sizeAllocate ⟨900, 500⟩]

/-! ## C10: the spawned command -/

/-- C10, refuted as stated: with `SHELL` absent, and with `SHELL` set to the
empty string, the argument vector handed to `ExecAsync` is the one-element
vector holding the empty program name. -/
theorem shell_fallback_counterexample :
    (getTerminal [] cfgPlain).execArgs = [""] ∧
    (getTerminal [("SHELL", "")] cfgPlain).execArgs = [""] ∧
    (getTerminal [("HOME", "/root")] cfgPlain).execArgs.head? = some "" := by
  refine ⟨rfl, rfl, rfl⟩

/-- C10, amended. The argument vector handed to `ExecAsync` is the one-element
vector holding the value of the `SHELL` environment variable: the configured
shell when `SHELL` is set, and the empty string when `SHELL` is absent or
empty (no fallback is made). -/
theorem shell_from_environment (env : Environ) (cfg : Config) :
    (getTerminal env cfg).execArgs = [Getenv env "SHELL"] ∧
    (∀ shell, env.lookup "SHELL" = some shell → (getTerminal env cfg).execArgs = [shell]) ∧
    (env.lookup "SHELL" = none → (getTerminal env cfg).execArgs = [""]) ∧
    (∀ s0 gdk, setupWindow gdk env cfg = .ok s0 → s0.terminal.execArgs = [Getenv env "SHELL"]) := by
  refine ⟨rfl, fun shell h => ?_, fun h => ?_, fun s0 gdk h => ?_⟩
  · simp [getTerminal, Getenv, h]
  · simp [getTerminal, Getenv, h]
  · unfold setupWindow at h
    split at h
    · exact Except.noConfusion h
    · simp only [Except.ok.injEq] at h
      subst h
      rfl

/-- C10, amended, at an environment with `SHELL=/bin/zsh`. -/
theorem shell_from_environment_witness :
    (getTerminal [("HOME", "/root"), ("SHELL", "/bin/zsh")] cfgPlain).execArgs = ["/bin/zsh"] :=
  (shell_from_environment [("HOME", "/root"), ("SHELL", "/bin/zsh")] cfgPlain).2.1 "/bin/zsh"
    (by decide)

/-! ## C2: resize synchronisation -/

/-- No handler empties the image. -/
theorem dispatch_displayed_some (gdk : Gdk) (app : World) (e : Event)
    (h : displayed app ≠ none) : displayed (dispatch gdk app e) ≠ none := by
  by_cases he : ∀ a, e ≠ Event.sizeAllocate a
  · have hsame : displayed (dispatch gdk app e) = displayed app := by
      unfold displayed
      rw [(dispatch_other gdk app e he).1]
    rw [hsame]
    exact h
  · push_neg at he
    obtain ⟨a, rfl⟩ := he
    cases hsrc : app.sizeAllocate with
    | none => rw [dispatch_sizeAllocate_none gdk app a hsrc]; exact h
    | some src =>
      rcases sizeAllocate_cases gdk app a src hsrc with
        ⟨hn, _⟩ | ⟨_, _, _, _, hd⟩ | ⟨_, _, _, _, hd⟩ | ⟨p, q, hp, _, _, hd⟩
      · exact absurd hn h
      · rw [hd]; exact h
      · rw [hd]; exact h
      · rw [hd, displayed_rescaled (allocated app a) src p q hp]
        exact Option.some_ne_none q

/-- After a completed `size-allocate` event the image on screen has the size of the allocation. -/
theorem sizeAllocate_sync (gdk : Gdk) (hscale : ScaleExact gdk) (app : World) (a : Allocation)
    (src : Pixbuf) (hconn : app.sizeAllocate = some src) (himg : displayed app ≠ none)
    (hdone : (dispatch gdk app (Event.sizeAllocate a)).status = Status.running) :
    ∃ p, displayed (dispatch gdk app (Event.sizeAllocate a)) = some p ∧
      p.width = a.width ∧ p.height = a.height := by
  rcases sizeAllocate_cases gdk app a src hconn with
    ⟨hn, _⟩ | ⟨p, hp, hw, hh, hd⟩ | ⟨_, _, _, _, hd⟩ | ⟨p, q, hp, _, hs, hd⟩
  · exact absurd hn himg
  · exact ⟨p, by rw [hd]; exact hp, hw.symm, hh.symm⟩
  · rw [hd] at hdone
    exact Status.noConfusion hdone
  · exact ⟨q, by rw [hd]; exact displayed_rescaled (allocated app a) src p q hp,
      hscale src a.width a.height _ q hs⟩

/-- The image on screen after a completed `size-allocate` event that follows any events. -/
theorem sync_after_events (gdk : Gdk) (hscale : ScaleExact gdk) (s0 : World) (evs : List Event)
    (a : Allocation) (src : Pixbuf) (hconn : s0.sizeAllocate = some src)
    (himg0 : displayed s0 ≠ none)
    (hdone : (mainLoop gdk s0 (evs ++ [Event.sizeAllocate a])).status = Status.running) :
    ∃ p, displayed (mainLoop gdk s0 (evs ++ [Event.sizeAllocate a])) = some p ∧
      p.width = a.width ∧ p.height = a.height := by
  obtain ⟨_, hlast⟩ := mainLoop_snoc gdk s0 evs _ hdone
  rw [hlast] at hdone ⊢
  have himg : displayed (mainLoop gdk s0 evs) ≠ none :=
    mainLoop_invariant gdk (fun w => displayed w ≠ none)
      (fun w e _ hw => dispatch_displayed_some gdk w e hw) s0 evs himg0
  exact sizeAllocate_sync gdk hscale _ a src
    ((mainLoop_sizeAllocate_field gdk s0 evs).trans hconn) himg hdone

theorem simGdk_scaleExact (nw nh : Int) : ScaleExact (simGdk nw nh) := by
  intro src w h interp q hq
  simp only [simGdk] at hq
  split at hq
  · next heq =>
    simp only [Option.some.injEq] at hq
    subst hq
    exact ⟨heq.1.symm, heq.2.symm⟩
  · split at hq
    · simp only [Option.some.injEq] at hq
      subst hq
      exact ⟨rfl, rfl⟩
    · exact Option.noConfusion hq

theorem simGdkNoCopy_scaleExact (nw nh : Int) : ScaleExact (simGdkNoCopy nw nh) :=
  simGdk_scaleExact nw nh

/-- C2, refuted as stated: in a toolkit where a successful `ScaleSimple(w, h)`
returns a pixbuf of `w` by `h` but `PixbufCopy` fails at start-up (its error
is discarded), `setupWindow` succeeds with a background, the resize event to
800 by 400 completes with the loop running, and there is no image of 800 by
400 on screen: the image holds no pixbuf. -/
theorem resize_sync_counterexample :
    ScaleExact (simGdkNoCopy 680 300) ∧
    ∃ s0, setupWindow (simGdkNoCopy 680 300) [] cfgStretch = .ok s0 ∧
      s0.Config.Background.Source ≠ "" ∧
      (mainLoop (simGdkNoCopy 680 300) s0 [Event.sizeAllocate ⟨800, 400⟩]).status
        = Status.running ∧
      (mainLoop (simGdkNoCopy 680 300) s0 [Event.sizeAllocate ⟨800, 400⟩]).Window.allocation
        = ⟨800, 400⟩ ∧
      displayed (mainLoop (simGdkNoCopy 680 300) s0 [Event.sizeAllocate ⟨800, 400⟩]) = none ∧
      (displayed (mainLoop (simGdkNoCopy 680 300) s0 [Event.sizeAllocate ⟨800, 400⟩])).map
        (fun p => (p.width, p.height)) ≠ some (800, 400) := by
  refine ⟨simGdkNoCopy_scaleExact 680 300, _, rfl, by decide, by decide, by decide, by decide,
    by decide⟩

/-- C2, amended. With a background configured and a start-up image that holds
a pixbuf (the `PixbufCopy` made by `getBackground` returned one), starting
from the state built by `setupWindow`, after every `size-allocate` event whose
handler completes (whatever events came before) the image on screen is as wide
and as high as the allocation, in a toolkit where a successful
`ScaleSimple(w, h)` returns a pixbuf of `w` by `h`. -/
theorem resize_sync (gdk : Gdk) (hscale : ScaleExact gdk)
    (env : Environ) (cfg : Config) (s0 : World) (evs : List Event) (a : Allocation)
    (hbg : cfg.Background.Source ≠ "") (hsetup : setupWindow gdk env cfg = .ok s0)
    (himg0 : displayed s0 ≠ none)
    (hdone : (mainLoop gdk s0 (evs ++ [Event.sizeAllocate a])).status = Status.running) :
    ∃ p, displayed (mainLoop gdk s0 (evs ++ [Event.sizeAllocate a])) = some p ∧
      p.width = a.width ∧ p.height = a.height := by
  obtain ⟨src, _, hconn, _⟩ := setupWindow_background gdk env cfg s0 hbg hsetup
  exact sync_after_events gdk hscale s0 evs a src hconn himg0 hdone

/-- C2, amended, at a 680 by 300 picture fitted with
`preserve_aspect_ratio = true`: the window is allocated 680 by 370, 800 by 400
and then 800 by 400 again; the handlers complete and the image on screen is
800 by 400. -/
theorem resize_sync_witness :
    ∃ s0, setupWindow (simGdk 680 300) [] cfgPreserve = .ok s0 ∧
      displayed s0 ≠ none ∧
      (mainLoop (simGdk 680 300) s0
        ([Event.sizeAllocate ⟨680, 370⟩, Event.sizeAllocate ⟨800, 400⟩] ++
          [Event.sizeAllocate ⟨800, 400⟩])).status = Status.running ∧
      ∃ p, displayed (mainLoop (simGdk 680 300) s0
        ([Event.sizeAllocate ⟨680, 370⟩, Event.sizeAllocate ⟨800, 400⟩] ++
          [Event.sizeAllocate ⟨800, 400⟩])) = some p ∧ p.width = 800 ∧ p.height = 400 := by
  refine ⟨_, rfl, by decide, by decide, ?_⟩
  exact resize_sync (simGdk 680 300) (simGdk_scaleExact 680 300) [] cfgPreserve _
    [Event.sizeAllocate ⟨680, 370⟩, Event.sizeAllocate ⟨800, 400⟩] ⟨800, 400⟩
    (by decide) rfl (by decide) (by decide)

/-! ## The two phases of a world with a background -/

/-- Every handler that completes keeps `Synced`. -/
theorem synced_step (gdk : Gdk) (hscale : ScaleExact gdk) (src p0 : Pixbuf) (m : Int × Int)
    (app : World) (e : Event) (hconn : app.sizeAllocate = some src)
    (h : Synced gdk src p0 m app)
    (hdone : (dispatch gdk app e).status = Status.running) :
    Synced gdk src p0 m (dispatch gdk app e) := by
  by_cases he : ∀ a, e ≠ Event.sizeAllocate a
  · obtain ⟨hi, hs, ht⟩ := dispatch_other gdk app e he
    have hd : displayed (dispatch gdk app e) = displayed app := by
      unfold displayed
      rw [hi]
    unfold Synced at h ⊢
    rw [hd, hs, ht]
    exact h
  · push_neg at he
    obtain ⟨a, rfl⟩ := he
    rcases sizeAllocate_cases gdk app a src hconn with
      ⟨hn, _⟩ | ⟨_, _, _, _, hd⟩ | ⟨_, _, _, _, hd⟩ | ⟨p1, q, hp1, _, hq, hd⟩
    · rcases h with ⟨_, _, hp⟩ | ⟨_, p, hp, _⟩ <;>
        exact Option.noConfusion (hn.symm.trans hp)
    · rw [hd]
      exact h
    · rw [hd] at hdone
      exact Status.noConfusion hdone
    · rw [hd]
      obtain ⟨hw, hh⟩ := hscale src a.width a.height _ q hq
      refine Or.inr ⟨⟨GdkCall.scale src a.width a.height InterpType.INTERP_BILINEAR, ?_, rfl⟩,
        q, displayed_rescaled (allocated app a) src p1 q hp1, ?_, ?_⟩
      · show GdkCall.scale src a.width a.height InterpType.INTERP_BILINEAR ∈
          app.trace ++ [GdkCall.scale src a.width a.height InterpType.INTERP_BILINEAR]
        exact List.mem_append.mpr (Or.inr (List.mem_singleton.mpr rfl))
      · show (a.width, a.height) = (q.width, q.height)
        rw [hw, hh]
      · rw [hw, hh]
        exact hq

/-- A world built by `setupWindow` with a background is in the first phase. -/
theorem synced_setup (gdk : Gdk) (env : Environ) (cfg : Config) (s0 : World) (src p0 : Pixbuf)
    (hbg : cfg.Background.Source ≠ "") (hsetup : setupWindow gdk env cfg = .ok s0)
    (himg0 : displayed s0 = some p0) :
    Synced gdk src p0 (cfg.Terminal.MinWidth, cfg.Terminal.MinHeight) s0 := by
  obtain ⟨src1, _, _, _, htrace, hreq, _⟩ := setupWindow_background gdk env cfg s0 hbg hsetup
  refine Or.inl ⟨?_, hreq, himg0⟩
  intro c hc
  rw [htrace] at hc
  simp only [List.mem_cons, List.mem_singleton, List.mem_nil_iff, or_false] at hc
  rcases hc with rfl | rfl <;> rfl

/-- While the loop runs, a world that started `Synced` is `Synced`. -/
theorem synced_mainLoop (gdk : Gdk) (hscale : ScaleExact gdk) (src p0 : Pixbuf) (m : Int × Int)
    (s0 : World) (es : List Event) (hconn : s0.sizeAllocate = some src)
    (h0 : Synced gdk src p0 m s0)
    (hrun : (mainLoop gdk s0 es).status = Status.running) :
    Synced gdk src p0 m (mainLoop gdk s0 es) :=
  (mainLoop_invariant gdk
    (fun w => w.sizeAllocate = some src ∧ (w.status = Status.running → Synced gdk src p0 m w))
    (fun w e _ hw => ⟨(dispatch_sizeAllocate_field gdk w e).trans hw.1, fun hdone =>
      synced_step gdk hscale src p0 m w e hw.1
        (hw.2 (by
          by_contra hstop
          exact dispatch_stays_stopped gdk w e hstop hdone)) hdone⟩)
    s0 es ⟨hconn, fun _ => h0⟩).2 hrun

/-! ## C3: the terminal container -/

/-- C3, refuted as stated: in a toolkit where a successful `ScaleSimple(w, h)`
returns a pixbuf of `w` by `h` but `PixbufCopy` fails at start-up (its error
is discarded), `setupWindow` succeeds with a background, the resize event to
800 by 400 completes with the loop running, and the scrolled window still
requests 680 by 370. -/
theorem container_sync_counterexample :
    ScaleExact (simGdkNoCopy 680 300) ∧
    ∃ s0, setupWindow (simGdkNoCopy 680 300) [] cfgStretch = .ok s0 ∧
      s0.Config.Background.Source ≠ "" ∧
      (mainLoop (simGdkNoCopy 680 300) s0 [Event.sizeAllocate ⟨800, 400⟩]).status
        = Status.running ∧
      (mainLoop (simGdkNoCopy 680 300) s0 [Event.sizeAllocate ⟨800, 400⟩]).Window.allocation
        = ⟨800, 400⟩ ∧
      (mainLoop (simGdkNoCopy 680 300) s0 [Event.sizeAllocate ⟨800, 400⟩]).scrolledWindow.sizeRequest
        = (680, 370) ∧
      (mainLoop (simGdkNoCopy 680 300) s0 [Event.sizeAllocate ⟨800, 400⟩]).scrolledWindow.sizeRequest
        ≠ (800, 400) := by
  refine ⟨simGdkNoCopy_scaleExact 680 300, _, rfl, by decide, by decide, by decide, by decide,
    by decide⟩

/-- C3, amended. With a background configured and a start-up image `p0` that
holds a pixbuf, after a resize event completes (whatever events came before,
for either value of `preserve_aspect_ratio`, the first resize event included):
when `p0` is no larger than `min_width` by `min_height` and the allocation is
at least `min_width` by `min_height`, the scrolled window requests the
allocation's width and height; for any allocation it requests the allocation
once a rescale has been requested, and while none has been requested it still
requests `min_width` by `min_height`, the allocation being the size of `p0`;
in a toolkit where a successful `ScaleSimple(w, h)` returns a pixbuf of `w` by
`h`. -/
theorem container_sync (gdk : Gdk) (hscale : ScaleExact gdk)
    (env : Environ) (cfg : Config) (s0 : World) (evs : List Event) (a : Allocation)
    (p0 : Pixbuf)
    (hbg : cfg.Background.Source ≠ "") (hsetup : setupWindow gdk env cfg = .ok s0)
    (himg0 : displayed s0 = some p0)
    (hdone : (mainLoop gdk s0 (evs ++ [Event.sizeAllocate a])).status = Status.running) :
    (p0.width ≤ cfg.Terminal.MinWidth → p0.height ≤ cfg.Terminal.MinHeight →
      cfg.Terminal.MinWidth ≤ a.width → cfg.Terminal.MinHeight ≤ a.height →
      (mainLoop gdk s0 (evs ++ [Event.sizeAllocate a])).scrolledWindow.sizeRequest
        = (a.width, a.height)) ∧
    ((∃ c ∈ (mainLoop gdk s0 (evs ++ [Event.sizeAllocate a])).trace, c.isScale = true) →
      (mainLoop gdk s0 (evs ++ [Event.sizeAllocate a])).scrolledWindow.sizeRequest
        = (a.width, a.height)) ∧
    ((∀ c ∈ (mainLoop gdk s0 (evs ++ [Event.sizeAllocate a])).trace, c.isScale = false) →
      (mainLoop gdk s0 (evs ++ [Event.sizeAllocate a])).scrolledWindow.sizeRequest
        = (cfg.Terminal.MinWidth, cfg.Terminal.MinHeight) ∧
      a.width = p0.width ∧ a.height = p0.height) := by
  obtain ⟨src, _, hconn, _⟩ := setupWindow_background gdk env cfg s0 hbg hsetup
  obtain ⟨p, hp, hpw, hph⟩ := sync_after_events gdk hscale s0 evs a src hconn
    (by rw [himg0]; exact Option.some_ne_none p0) hdone
  have hsync := synced_mainLoop gdk hscale src p0 _ s0 (evs ++ [Event.sizeAllocate a]) hconn
    (synced_setup gdk env cfg s0 src p0 hbg hsetup himg0) hdone
  rcases hsync with ⟨hnone, hreq, hp0⟩ | ⟨hsome, p1, hp1, hreq, _⟩
  · rw [hp] at hp0
    simp only [Option.some.injEq] at hp0
    subst hp0
    refine ⟨fun hw hh haw hah => ?_, ?_, fun _ => ⟨hreq, hpw.symm, hph.symm⟩⟩
    · rw [hreq]
      have e1 : cfg.Terminal.MinWidth = a.width := le_antisymm haw (hpw ▸ hw)
      have e2 : cfg.Terminal.MinHeight = a.height := le_antisymm hah (hph ▸ hh)
      rw [e1, e2]
    · rintro ⟨c, hc, hcs⟩
      rw [hnone c hc] at hcs
      exact Bool.noConfusion hcs
  · rw [hp] at hp1
    simp only [Option.some.injEq] at hp1
    subst hp1
    have hreq1 : (mainLoop gdk s0 (evs ++ [Event.sizeAllocate a])).scrolledWindow.sizeRequest
        = (a.width, a.height) := by
      rw [hreq, hpw, hph]
    refine ⟨fun _ _ _ _ => hreq1, fun _ => hreq1, fun hnone => ?_⟩
    obtain ⟨c, hc, hcs⟩ := hsome
    rw [hnone c hc] at hcs
    exact Bool.noConfusion hcs

/-- C3, amended, at `preserve_aspect_ratio = true` and a picture loaded as 680
by 300 into the 680 by 370 box: the first resize event after start-up, to 800
by 400, completes and the scrolled window requests 800 by 400. -/
theorem container_sync_witness :
    ∃ s0, setupWindow (simGdk 680 300) [] cfgPreserve = .ok s0 ∧
      displayed s0 = some ⟨680, 300, [0]⟩ ∧
      (mainLoop (simGdk 680 300) s0 ([] ++ [Event.sizeAllocate ⟨800, 400⟩])).status
          = Status.running ∧
      (mainLoop (simGdk 680 300) s0
        ([] ++ [Event.sizeAllocate ⟨800, 400⟩])).scrolledWindow.sizeRequest = (800, 400) := by
  refine ⟨_, rfl, by decide, by decide, ?_⟩
  exact (container_sync (simGdk 680 300) (simGdk_scaleExact 680 300) [] cfgPreserve _ []
    ⟨800, 400⟩ ⟨680, 300, [0]⟩ (by decide) rfl (by decide) (by decide)).1
      (by decide) (by decide) (by decide) (by decide)

/-! ## C4: resize idempotence -/

/-- A `size-allocate` event whose allocation is the size of the image on screen changes
only the window's allocation, and `resizeImage` returns nil. -/
theorem sizeAllocate_again (gdk : Gdk) (app : World) (a : Allocation) (src p : Pixbuf)
    (hconn : app.sizeAllocate = some src) (hp : displayed app = some p)
    (hw : a.width = p.width) (hh : a.height = p.height) :
    resizeImage gdk (allocated app a) src = (allocated app a, none) ∧
      dispatch gdk app (Event.sizeAllocate a) = allocated app a := by
  have hp1 : displayed (allocated app a) = some p := hp
  exact ⟨resizeImage_same gdk (allocated app a) src p hp1 hw hh,
    by rw [dispatch_sizeAllocate gdk app a src hconn,
      onSizeAllocate_same gdk (allocated app a) src p hp1 hw hh]⟩

/-- C4. For every world and every allocation `a`: when a resize event with the
allocation `a` has completed, a second resize event with the same allocation
makes `resizeImage` return nil, adds no toolkit call to the trace (so
`ScaleSimple` is not invoked), and leaves the image on screen, the scrolled
window's and the terminal's size request and the status unchanged, in a
toolkit where a successful `ScaleSimple(w, h)` returns a pixbuf of `w` by `h`. -/
theorem resize_idempotent (gdk : Gdk) (hscale : ScaleExact gdk) (app : World) (a : Allocation)
    (hdone : (dispatch gdk app (Event.sizeAllocate a)).status = Status.running) :
    (∀ src, app.sizeAllocate = some src →
      (resizeImage gdk (allocated (dispatch gdk app (Event.sizeAllocate a)) a) src).2 = none) ∧
    (dispatch gdk (dispatch gdk app (Event.sizeAllocate a)) (Event.sizeAllocate a)).trace
      = (dispatch gdk app (Event.sizeAllocate a)).trace ∧
    (dispatch gdk (dispatch gdk app (Event.sizeAllocate a)) (Event.sizeAllocate a)).BackgroundImage
      = (dispatch gdk app (Event.sizeAllocate a)).BackgroundImage ∧
    (dispatch gdk (dispatch gdk app (Event.sizeAllocate a)) (Event.sizeAllocate a)).scrolledWindow
      = (dispatch gdk app (Event.sizeAllocate a)).scrolledWindow ∧
    (dispatch gdk (dispatch gdk app (Event.sizeAllocate a)) (Event.sizeAllocate a)).terminal
      = (dispatch gdk app (Event.sizeAllocate a)).terminal ∧
    (dispatch gdk (dispatch gdk app (Event.sizeAllocate a)) (Event.sizeAllocate a)).status
      = Status.running := by
  cases hsrc : app.sizeAllocate with
  | none =>
    have h1 := dispatch_sizeAllocate_none gdk app a hsrc
    have h2 := dispatch_sizeAllocate_none gdk (allocated app a) a hsrc
    rw [h1] at hdone ⊢
    rw [h2]
    exact ⟨fun src h => Option.noConfusion h, rfl, rfl, rfl, rfl, hdone⟩
  | some src =>
    have hconn1 : (dispatch gdk app (Event.sizeAllocate a)).sizeAllocate = some src :=
      (dispatch_sizeAllocate_field gdk app _).trans hsrc
    rcases sizeAllocate_cases gdk app a src hsrc with
      ⟨hn, hd⟩ | ⟨p, hp, hw, hh, hd⟩ | ⟨_, _, _, _, hd⟩ | ⟨p, q, hp, _, hq, hd⟩
    · rw [hd] at hdone hconn1 ⊢
      have hn1 : displayed (allocated
          { allocated app a with log := app.log ++ ["Can\x27t get on-screen pixbuf"] } a)
          = none := hn
      refine ⟨fun src1 _ => by rw [resizeImage_nil gdk _ src1 hn1], ?_⟩
      rw [dispatch_sizeAllocate gdk _ a src hconn1, onSizeAllocate_nil gdk _ src hn1]
      exact ⟨rfl, rfl, rfl, rfl, hdone⟩
    · rw [hd] at hdone hconn1 ⊢
      obtain ⟨hr, hagain⟩ := sizeAllocate_again gdk (allocated app a) a src p hconn1 hp hw hh
      refine ⟨fun src1 hs1 => ?_, ?_⟩
      · simp only [Option.some.injEq] at hs1
        subst hs1
        rw [hr]
      · rw [hagain]
        exact ⟨rfl, rfl, rfl, rfl, hdone⟩
    · rw [hd] at hdone
      exact Status.noConfusion hdone
    · rw [hd] at hdone hconn1 ⊢
      obtain ⟨hqw, hqh⟩ := hscale src a.width a.height _ q hq
      have hq1 : displayed (rescaled (allocated app a) src q) = some q :=
        displayed_rescaled (allocated app a) src p q hp
      obtain ⟨hr, hagain⟩ := sizeAllocate_again gdk (rescaled (allocated app a) src q) a src q
        hconn1 hq1 hqw.symm hqh.symm
      refine ⟨fun src1 hs1 => ?_, ?_⟩
      · simp only [Option.some.injEq] at hs1
        subst hs1
        rw [hr]
      · rw [hagain]
        exact ⟨rfl, rfl, rfl, rfl, hdone⟩

/-- C4 from the set-up with a background: the first resize to 800 by 400
rescales and completes, the second adds nothing to the trace of three calls. -/
theorem resize_idempotent_witness :
    ∃ s0, setupWindow (simGdk 680 300) [] cfgPreserve = .ok s0 ∧
      (dispatch (simGdk 680 300) s0 (Event.sizeAllocate ⟨800, 400⟩)).status = Status.running ∧
      (dispatch (simGdk 680 300) s0 (Event.sizeAllocate ⟨800, 400⟩)).trace.length = 3 ∧
      (dispatch (simGdk 680 300) (dispatch (simGdk 680 300) s0 (Event.sizeAllocate ⟨800, 400⟩))
        (Event.sizeAllocate ⟨800, 400⟩)).trace
        = (dispatch (simGdk 680 300) s0 (Event.sizeAllocate ⟨800, 400⟩)).trace := by
  refine ⟨_, rfl, by decide, by decide, ?_⟩
  exact (resize_idempotent (simGdk 680 300) (simGdk_scaleExact 680 300) _ ⟨800, 400⟩
    (by decide)).2.1

/-! ## C5: the aspect ratio is not kept on resize -/

/-- No handler reads the `preserve_aspect_ratio` flag: setting it commutes with every event. -/
theorem dispatch_withPreserve (gdk : Gdk) (b : Bool) (app : World) (e : Event) :
    dispatch gdk (withPreserve b app) e = withPreserve b (dispatch gdk app e) := by
  cases e with
  | sizeAllocate a =>
    cases hsrc : app.sizeAllocate with
    | none =>
      rw [dispatch_sizeAllocate_none gdk app a hsrc,
        dispatch_sizeAllocate_none gdk (withPreserve b app) a hsrc]
      rfl
    | some src =>
      have hsrc1 : (withPreserve b app).sizeAllocate = some src := hsrc
      rw [dispatch_sizeAllocate gdk (withPreserve b app) a src hsrc1]
      rcases sizeAllocate_cases gdk app a src hsrc with
        ⟨hn, hd⟩ | ⟨p, hp, hw, hh, hd⟩ | ⟨p, hp, hne, hq, hd⟩ | ⟨p, q, hp, hne, hq, hd⟩
      · rw [hd, onSizeAllocate_nil gdk _ src (by exact hn)]
        rfl
      · rw [hd, onSizeAllocate_same gdk _ src p (by exact hp) hw hh]
        rfl
      · rw [hd, onSizeAllocate_failed gdk _ src p (by exact hp) hne hq]
        rfl
      · rw [hd, onSizeAllocate_scaled gdk _ src p q (by exact hp) hne hq]
        rfl
  | childExited => rfl
  | windowTitleChanged t => rfl
  | destroy => rfl
  | onExec pid err => cases err <;> rfl

/-- C5. For every world with the `size-allocate` closure connected and every
resize event whose allocation differs in width or in height from the image
on screen, whatever the `preserve_aspect_ratio` flag `b`: `ScaleSimple` is
requested on the source pixbuf for the full allocation, a successful rescale
leaves on screen its result, which is exactly as wide and as high as the
allocation, and a failed one is fatal; and no handler reads the flag, nor do
`getTerminal` and `getTermWindow`. -/
theorem stretch_on_resize (gdk : Gdk) (hscale : ScaleExact gdk) (app : World) (a : Allocation)
    (src p : Pixbuf) (b : Bool)
    (hconn : app.sizeAllocate = some src) (hp : displayed app = some p)
    (hdiff : a.width ≠ p.width ∨ a.height ≠ p.height) :
    (dispatch gdk (withPreserve b app) (Event.sizeAllocate a)).trace =
      app.trace ++ [GdkCall.scale src a.width a.height InterpType.INTERP_BILINEAR] ∧
    (∀ q, gdk.ScaleSimple src a.width a.height InterpType.INTERP_BILINEAR = some q →
      displayed (dispatch gdk (withPreserve b app) (Event.sizeAllocate a)) = some q ∧
        q.width = a.width ∧ q.height = a.height) ∧
    (gdk.ScaleSimple src a.width a.height InterpType.INTERP_BILINEAR = none →
      (dispatch gdk (withPreserve b app) (Event.sizeAllocate a)).status = Status.fatal) ∧
    (∀ (w : World) (e : Event),
      dispatch gdk (withPreserve b w) e = withPreserve b (dispatch gdk w e)) ∧
    (∀ (env : Environ) (cfg : Config),
      getTerminal env { cfg with Background := { cfg.Background with PreserveAspectRatio := b } }
        = getTerminal env cfg ∧
      getTermWindow { cfg with Background := { cfg.Background with PreserveAspectRatio := b } }
        = getTermWindow cfg) := by
  have hconn1 : (withPreserve b app).sizeAllocate = some src := hconn
  have hp1 : displayed (allocated (withPreserve b app) a) = some p := hp
  rw [dispatch_sizeAllocate gdk (withPreserve b app) a src hconn1]
  refine ⟨?_, fun q hq => ?_, fun hq => ?_, fun w e => dispatch_withPreserve gdk b w e,
    fun env cfg => ⟨rfl, rfl⟩⟩
  · cases hq : gdk.ScaleSimple src a.width a.height InterpType.INTERP_BILINEAR with
    | none =>
      rw [onSizeAllocate_failed gdk _ src p hp1 hdiff hq]
      rfl
    | some q =>
      rw [onSizeAllocate_scaled gdk _ src p q hp1 hdiff hq]
      rfl
  · rw [onSizeAllocate_scaled gdk _ src p q hp1 hdiff hq]
    exact ⟨displayed_rescaled _ src p q hp1, hscale src a.width a.height _ q hq⟩
  · rw [onSizeAllocate_failed gdk _ src p hp1 hdiff hq]

/-- C5 at the window opened at 680 by 370 with `preserve_aspect_ratio = true`
and a 680 by 300 picture: the first resize, to 800 by 400, puts an image of
exactly 800 by 400 on screen. -/
theorem stretch_on_resize_witness :
    ∃ s0, setupWindow (simGdk 680 300) [] cfgPreserve = .ok s0 ∧
      s0.Config.Background.PreserveAspectRatio = true ∧
      displayed s0 = some ⟨680, 300, [0]⟩ ∧
      ∃ q, displayed (dispatch (simGdk 680 300) (withPreserve true s0)
          (Event.sizeAllocate ⟨800, 400⟩)) = some q ∧ q.width = 800 ∧ q.height = 400 := by
  refine ⟨_, rfl, rfl, by decide, ⟨800, 400, [0, 800, 400]⟩, ?_⟩
  exact (stretch_on_resize (simGdk 680 300) (simGdk_scaleExact 680 300) _ ⟨800, 400⟩
    ⟨680, 300, [0]⟩ ⟨680, 300, [0]⟩ true (by decide) (by decide) (by decide)).2.1
      ⟨800, 400, [0, 800, 400]⟩ (by decide)

/-! ## C6: the source image is the single source of truth -/

/-- Every handler keeps: the closure holds `src`, and every rescale in the
trace was computed from `src`. -/
theorem source_invariant (gdk : Gdk) (src : Pixbuf) (app : World) (e : Event)
    (h : app.sizeAllocate = some src ∧
      (∀ c ∈ app.trace, ∀ x, c.scaleSource = some x → x = src)) :
    (dispatch gdk app e).sizeAllocate = some src ∧
      (∀ c ∈ (dispatch gdk app e).trace, ∀ x, c.scaleSource = some x → x = src) := by
  obtain ⟨hconn, htrace⟩ := h
  refine ⟨(dispatch_sizeAllocate_field gdk app e).trans hconn, ?_⟩
  by_cases he : ∀ a, e ≠ Event.sizeAllocate a
  · rw [(dispatch_other gdk app e he).2.2]
    exact htrace
  · push_neg at he
    obtain ⟨a, rfl⟩ := he
    have hnew : ∀ c ∈ app.trace ++
        [GdkCall.scale src a.width a.height InterpType.INTERP_BILINEAR],
        ∀ x, c.scaleSource = some x → x = src := by
      intro c hc x hx
      rcases List.mem_append.mp hc with hc1 | hc1
      · exact htrace c hc1 x hx
      · rw [List.mem_singleton] at hc1
        subst hc1
        simp only [GdkCall.scaleSource, Option.some.injEq] at hx
        exact hx.symm
    rcases sizeAllocate_cases gdk app a src hconn with
      ⟨_, hd⟩ | ⟨_, _, _, _, hd⟩ | ⟨_, _, _, _, hd⟩ | ⟨_, _, _, _, _, hd⟩
    · rw [hd]; exact htrace
    · rw [hd]; exact htrace
    · rw [hd]; exact hnew
    · rw [hd]; exact hnew

/-- C6, refuted as stated: in a toolkit where a successful `ScaleSimple(w, h)`
returns a pixbuf of `w` by `h` but `PixbufCopy` fails at start-up (its error
is discarded), `setupWindow` succeeds around the source pixbuf, the resize
event to 800 by 400 completes with the loop running, the source scaled to the
allocation is an 800 by 400 pixbuf, and the image on screen is not it: the
image holds no pixbuf. -/
theorem source_of_truth_counterexample :
    ScaleExact (simGdkNoCopy 680 300) ∧
    ∃ s0, setupWindow (simGdkNoCopy 680 300) [] cfgStretch = .ok s0 ∧
      s0.sizeAllocate = some ⟨680, 370, [0]⟩ ∧
      (mainLoop (simGdkNoCopy 680 300) s0 [Event.sizeAllocate ⟨800, 400⟩]).status
        = Status.running ∧
      (simGdkNoCopy 680 300).ScaleSimple ⟨680, 370, [0]⟩ 800 400 InterpType.INTERP_BILINEAR
        = some ⟨800, 400, [0, 800, 400]⟩ ∧
      displayed (mainLoop (simGdkNoCopy 680 300) s0 [Event.sizeAllocate ⟨800, 400⟩])
        ≠ (simGdkNoCopy 680 300).ScaleSimple ⟨680, 370, [0]⟩ 800 400
            InterpType.INTERP_BILINEAR := by
  refine ⟨simGdkNoCopy_scaleExact 680 300, _, rfl, by decide, by decide, by decide, by decide⟩

/-- C6, amended. With a background configured, starting from the state built by
`setupWindow` around the source pixbuf `src` returned by `getBackground`:
after any events the `size-allocate` closure still holds `src`, and every
rescale recorded in the trace was computed from `src`. When the start-up image
`p0` holds a pixbuf, after every completed resize event the image on screen
is `ScaleSimple src` at the current allocation once a rescale has been
requested, whatever allocations came before, and is `p0` while none has been
requested; so it is `ScaleSimple src` at the current allocation in every case
when scaling `src` to the size of `p0` gives `p0`; in a toolkit where a
successful `ScaleSimple(w, h)` returns a pixbuf of `w` by `h`. -/
theorem source_of_truth (gdk : Gdk) (hscale : ScaleExact gdk)
    (env : Environ) (cfg : Config) (s0 : World) (evs : List Event) (a : Allocation)
    (p0 : Pixbuf)
    (hbg : cfg.Background.Source ≠ "") (hsetup : setupWindow gdk env cfg = .ok s0)
    (himg0 : displayed s0 = some p0)
    (hdone : (mainLoop gdk s0 (evs ++ [Event.sizeAllocate a])).status = Status.running) :
    ∃ src, getBackground gdk cfg cfg.Terminal.MinWidth cfg.Terminal.MinHeight
        = .ok (some ⟨gdk.PixbufCopy src, (-1, -1)⟩, some src,
            [GdkCall.load cfg.Background.Source cfg.Terminal.MinWidth cfg.Terminal.MinHeight
              cfg.Background.PreserveAspectRatio, GdkCall.copy src]) ∧
      (∀ es, (mainLoop gdk s0 es).sizeAllocate = some src) ∧
      (∀ es, ∀ c ∈ (mainLoop gdk s0 es).trace, ∀ x, c.scaleSource = some x → x = src) ∧
      ∃ p, displayed (mainLoop gdk s0 (evs ++ [Event.sizeAllocate a])) = some p ∧
        ((∃ c ∈ (mainLoop gdk s0 (evs ++ [Event.sizeAllocate a])).trace, c.isScale = true) →
          gdk.ScaleSimple src a.width a.height InterpType.INTERP_BILINEAR = some p) ∧
        ((∀ c ∈ (mainLoop gdk s0 (evs ++ [Event.sizeAllocate a])).trace, c.isScale = false) →
          p = p0) ∧
        (gdk.ScaleSimple src p0.width p0.height InterpType.INTERP_BILINEAR = some p0 →
          gdk.ScaleSimple src a.width a.height InterpType.INTERP_BILINEAR = some p) := by
  obtain ⟨src, hload, hconn, _, htrace, _⟩ := setupWindow_background gdk env cfg s0 hbg hsetup
  have hinv : ∀ es, (mainLoop gdk s0 es).sizeAllocate = some src ∧
      (∀ c ∈ (mainLoop gdk s0 es).trace, ∀ x, c.scaleSource = some x → x = src) := by
    intro es
    refine mainLoop_invariant gdk
      (fun w => w.sizeAllocate = some src ∧
        (∀ c ∈ w.trace, ∀ x, c.scaleSource = some x → x = src))
      (fun w e _ hw => source_invariant gdk src w e hw) s0 es ⟨hconn, ?_⟩
    intro c hc x hx
    rw [htrace] at hc
    simp only [List.mem_cons, List.mem_singleton, List.mem_nil_iff, or_false] at hc
    rcases hc with rfl | rfl <;> exact Option.noConfusion hx
  obtain ⟨p, hp, hpw, hph⟩ := sync_after_events gdk hscale s0 evs a src hconn
    (by rw [himg0]; exact Option.some_ne_none p0) hdone
  have hsync := synced_mainLoop gdk hscale src p0 _ s0 (evs ++ [Event.sizeAllocate a]) hconn
    (synced_setup gdk env cfg s0 src p0 hbg hsetup himg0) hdone
  refine ⟨src, by simp [getBackground, hbg, hload], fun es => (hinv es).1,
    fun es => (hinv es).2, p, hp, ?_⟩
  rcases hsync with ⟨hnone, _, hp0⟩ | ⟨hsome, p1, hp1, _, hq⟩
  · rw [hp] at hp0
    simp only [Option.some.injEq] at hp0
    subst hp0
    refine ⟨?_, fun _ => rfl, fun hself => ?_⟩
    · rintro ⟨c, hc, hcs⟩
      rw [hnone c hc] at hcs
      exact Bool.noConfusion hcs
    · rw [← hpw, ← hph]
      exact hself
  · rw [hp] at hp1
    simp only [Option.some.injEq] at hp1
    subst hp1
    rw [hpw, hph] at hq
    refine ⟨fun _ => hq, fun hnone => ?_, fun _ => hq⟩
    obtain ⟨c, hc, hcs⟩ := hsome
    rw [hnone c hc] at hcs
    exact Bool.noConfusion hcs

/-- C6, amended, at a 680 by 300 picture: after the allocations 900 by 500 and
then 800 by 400 the image on screen is the source scaled to 800 by 400, the
same as after 800 by 400 alone. -/
theorem source_of_truth_witness :
    ∃ s0, setupWindow (simGdk 680 300) [] cfgPreserve = .ok s0 ∧
      displayed s0 = some ⟨680, 300, [0]⟩ ∧
      (mainLoop (simGdk 680 300) s0
        ([Event.sizeAllocate ⟨900, 500⟩] ++ [Event.sizeAllocate ⟨800, 400⟩])).status
          = Status.running ∧
      displayed (mainLoop (simGdk 680 300) s0
        ([Event.sizeAllocate ⟨900, 500⟩] ++ [Event.sizeAllocate ⟨800, 400⟩]))
          = some ⟨800, 400, [0, 800, 400]⟩ ∧
      displayed (mainLoop (simGdk 680 300) s0 [Event.sizeAllocate ⟨800, 400⟩])
          = some ⟨800, 400, [0, 800, 400]⟩ := by
  refine ⟨_, rfl, by decide, by decide, ?_, by decide⟩
  obtain ⟨src, hsrc, _, _, p, hp, _, _, hps⟩ := source_of_truth (simGdk 680 300)
    (simGdk_scaleExact 680 300) [] cfgPreserve _ [Event.sizeAllocate ⟨900, 500⟩] ⟨800, 400⟩
    ⟨680, 300, [0]⟩ (by decide) rfl (by decide) (by decide)
  have hsrc1 : src = ⟨680, 300, [0]⟩ := by
    simp [getBackground, cfgPreserve, simGdk, aspectFit] at hsrc
    exact hsrc.symm
  subst hsrc1
  rw [hp]
  have hval : (simGdk 680 300).ScaleSimple ⟨680, 300, [0]⟩ 800 400 InterpType.INTERP_BILINEAR
      = some ⟨800, 400, [0, 800, 400]⟩ := by decide
  exact (hps (by decide)).symm.trans hval

end Termleek
